import Mathlib

/-!
Verification of the outreach state-tracking and deduplication workflow of the
linkedin-agent repository. The spreadsheet layer embeds `gsheet.py`
(class `CompanyTracker` over a gspread worksheet) as pure functions on a
`Sheet` value; the coordinator layer embeds `linkedin_agent.py`
(`send_connection_request`, `process_companies`) as state-passing functions
over the sheet, with the browser (search results, connect outcomes) and
store I/O failures supplied by an oracle. Timing (sleeps, randomized delays)
and the concrete DOM scraping are not modelled: they are external
collaborators whose observable results the oracle provides.
-/

namespace LinkedinAgent

/-- A worksheet: a list of rows of cells; row 1 (gspread is 1-indexed) is the
header row. A cell that was never written reads as the empty string. -/
abbrev Sheet := List (List String)

/-- Read element `i` (0-indexed) of a list, with a default for out-of-range;
models reading an unwritten spreadsheet cell. -/
def padGet (d : α) : List α → Nat → α
  | [], _ => d
  | x :: _, 0 => x
  | _ :: l, n + 1 => padGet d l n

/-- Write element `i` (0-indexed) of a list, padding with the default when the
list is shorter; models gspread `update_cell` materialising cells as needed. -/
def padSet (d : α) : List α → Nat → α → List α
  | [], 0, v => [v]
  | [], n + 1, v => d :: padSet d [] n v
  | _ :: l, 0, v => v :: l
  | x :: l, n + 1, v => x :: padSet d l n v

theorem padGet_padSet (d : α) : ∀ (i j : Nat) (l : List α) (v : α),
    padGet d (padSet d l i v) j = if j = i then v else padGet d l j := by
  intro i
  induction i with
  | zero =>
    intro j l v
    cases l <;> cases j <;> simp [padSet, padGet]
  | succ n ih =>
    intro j l v
    cases l with
    | nil =>
      cases j with
      | zero => simp [padSet, padGet]
      | succ m => simp [padSet, padGet, ih m []]
    | cons x l =>
      cases j with
      | zero => simp [padSet, padGet]
      | succ m => simp [padSet, padGet, ih m l]

/-- gspread `worksheet.update_cell(row, col, value)`, 1-indexed. -/
def update_cell (s : Sheet) (r c : Nat) (v : String) : Sheet :=
  padSet [] s (r - 1) (padSet "" (padGet [] s (r - 1)) (c - 1) v)

/-- The value held by a cell (1-indexed); unwritten cells read as `""`. -/
def cellAt (s : Sheet) (r c : Nat) : String :=
  padGet "" (padGet [] s (r - 1)) (c - 1)

theorem cellAt_update_cell (s : Sheet) (r c r' c' : Nat) (v : String)
    (hr : 1 ≤ r) (hc : 1 ≤ c) (hr' : 1 ≤ r') (hc' : 1 ≤ c') :
    cellAt (update_cell s r c v) r' c' =
      if r' = r ∧ c' = c then v else cellAt s r' c' := by
  unfold cellAt update_cell
  rw [padGet_padSet]
  by_cases h : r' - 1 = r - 1
  · have hrr : r' = r := by omega
    rw [if_pos h, padGet_padSet, hrr]
    by_cases h2 : c' - 1 = c - 1
    · have hcc : c' = c := by omega
      simp [h2, hcc]
    · have hcc : ¬ c' = c := by omega
      simp [h2, hcc]
  · have hrr : ¬ r' = r := by omega
    simp [h, hrr]

/-- Does the pattern occur at the start of the character list? -/
def startsWithL : List Char → List Char → Bool
  | [], _ => true
  | _ :: _, [] => false
  | p :: ps, c :: cs => p = c && startsWithL ps cs

/-- Does the pattern occur anywhere in the character list? -/
def containsL (pat : List Char) : List Char → Bool
  | [] => startsWithL pat []
  | c :: cs => startsWithL pat (c :: cs) || containsL pat cs

/-- Python `needle in hay` on strings (substring containment). -/
def strContains (hay needle : String) : Bool := containsL needle.data hay.data

/-- gspread `row_values` trims trailing empty cells. -/
def dropTrailingEmpties (l : List String) : List String :=
  (l.reverse.dropWhile (fun x => x = "")).reverse

/-- gspread `worksheet.row_values(1)`: the header row, trailing empties trimmed. -/
def row_values1 (s : Sheet) : List String := dropTrailingEmpties (padGet [] s 0)

def sheetWidth (s : Sheet) : Nat := s.foldr (fun r m => max r.length m) 0

/-- gspread `worksheet.get_all_values()`: a rectangular matrix, every row
padded with `""` to the width of the widest row. -/
def get_all_values (s : Sheet) : List (List String) :=
  s.map (fun r => r ++ List.replicate (sheetWidth s - r.length) "")

/-- One entry of a company's `people` list as built by `get_company_row`:
the header label of the column and the cell payload. -/
structure PersonEntry where
  column : String
  data : String
deriving DecidableEq

/-- The dictionary built by `CompanyTracker.get_company_row` /
`get_all_companies` (gsheet.py lines 299-315). -/
structure CompanyRow where
  row_number : Nat
  company_id : String
  company_name : String
  status : String
  comments : String
  people : List PersonEntry
deriving DecidableEq

/-- Person cells of one data row (gsheet.py lines 309-315): columns after the
four base columns, kept when a header exists at that index and the cell is
non-empty. -/
def extractPeople (headers row : List String) : List PersonEntry :=
  ((List.range row.length).drop 4).filterMap fun i =>
    match headers[i]?, row[i]? with
    | some h, some d => if d = "" then none else some ⟨h, d⟩
    | _, _ => none

def mkCompanyRow (headers row : List String) (idx : Nat) : CompanyRow :=
  { row_number := idx
    company_id := row.getD 0 ""
    company_name := row.getD 1 ""
    status := row.getD 2 ""
    comments := row.getD 3 ""
    people := extractPeople headers row }

/-- The scan of `get_company_row` (gsheet.py lines 297-318): first data row
(1-indexed row numbers starting at 2) whose first cell equals the id. -/
def findCompanyRow (companyId : String) (headers : List String) :
    List (List String) → Nat → Option CompanyRow
  | [], _ => none
  | row :: rest, idx =>
    match row with
    | [] => findCompanyRow companyId headers rest (idx + 1)
    | x :: _ =>
      if x = companyId then some (mkCompanyRow headers row idx)
      else findCompanyRow companyId headers rest (idx + 1)

/-- `CompanyTracker.get_company_row` (gsheet.py lines 277-325); `none` both for
an empty sheet and for an id that matches no row. -/
def get_company_row (s : Sheet) (companyId : String) : Option CompanyRow :=
  match get_all_values s with
  | [] => none
  | headers :: rows => findCompanyRow companyId headers rows 2

def collectCompanies (headers : List String) :
    List (List String) → Nat → List CompanyRow
  | [], _ => []
  | row :: rest, idx =>
    let tail := collectCompanies headers rest (idx + 1)
    match row with
    | [] => tail
    | x :: _ => if x = "" then tail else mkCompanyRow headers row idx :: tail

/-- `CompanyTracker.get_all_companies` (gsheet.py lines 327-371). -/
def get_all_companies (s : Sheet) : List CompanyRow :=
  match get_all_values s with
  | [] => []
  | [_] => []
  | headers :: rows => collectCompanies headers rows 2

/-- `CompanyTracker.update_company_status` (gsheet.py lines 373-401): look the
company up, write the status cell (column 3), and the comments cell (column 4)
only when comments are supplied; raises when the company is not found. -/
def update_company_status (s : Sheet) (companyId status : String)
    (comments : Option String) : Except String Sheet :=
  match get_company_row s companyId with
  | none => .error ("Company " ++ companyId ++ " not found")
  | some cd =>
    let s1 := update_cell s cd.row_number 3 status
    match comments with
    | none => .ok s1
    | some cm => .ok (update_cell s1 cd.row_number 4 cm)

/-- Value of an ASCII digit character. -/
def digVal (c : Char) : Nat := c.toNat - 48

/-- Digit run of Python `int()` after the first digit: digits with single
underscores allowed between digits ("1_0" parses; "1__0", "1_" do not). -/
def pyDigits : Nat → List Char → Option Nat
  | acc, [] => some acc
  | acc, '_' :: rest =>
    match rest with
    | c :: rest' => if c.isDigit then pyDigits (acc * 10 + digVal c) rest' else none
    | [] => none
  | acc, c :: rest => if c.isDigit then pyDigits (acc * 10 + digVal c) rest else none

def pyDigitsTop : List Char → Option Nat
  | [] => none
  | c :: rest => if c.isDigit then pyDigits (digVal c) rest else none

def isPySpace (c : Char) : Bool :=
  c = ' ' || c = '\t' || c = '\n' || c = '\r' || c.toNat = 11 || c.toNat = 12

/-- Python `int(s)` on ASCII input: surrounding whitespace stripped, optional
sign, then decimal digits with optional underscore separators. -/
def pyInt? (s : String) : Option Int :=
  let core := ((s.data.dropWhile isPySpace).reverse.dropWhile isPySpace).reverse
  match core with
  | '+' :: rest => (pyDigitsTop rest).map (fun n => (n : Int))
  | '-' :: rest => (pyDigitsTop rest).map (fun n => -(n : Int))
  | rest => (pyDigitsTop rest).map (fun n => (n : Int))

def personSep : List Char := "Person ".data

/-- Characters after the first `"Person "` of a header, up to the next
occurrence of `"Person "`: Python `header.split("Person ")[1]` for a header
that starts with `"Person "`. -/
def takeUntilSep : List Char → List Char
  | [] => []
  | c :: rest =>
    if startsWithL personSep (c :: rest) then [] else c :: takeUntilSep rest

/-- The number the source parses from one header cell
(gsheet.py lines 415-421): `header.startswith("Person ")` and
`int(header.split("Person ")[1])`, skipping parse failures. -/
def personColNum? (h : String) : Option Int :=
  if startsWithL personSep h.data then
    pyInt? (String.mk (takeUntilSep (h.data.drop 7)))
  else none

def personNums (headers : List String) : List Int := headers.filterMap personColNum?

/-- `CompanyTracker._get_next_person_column` (gsheet.py lines 403-432), the
numeric part: `max(person_columns) + 1`, or 1 when none parsed. -/
def nextPersonNum (headers : List String) : Int :=
  match personNums headers with
  | [] => 1
  | n :: rest => rest.foldl max n + 1

def get_next_person_column (s : Sheet) : String :=
  "Person " ++ toString (nextPersonNum (row_values1 s))

/-- Python `list.index` as an option (index of the first occurrence). -/
def firstIdx? : List String → String → Option Nat
  | [], _ => none
  | x :: l, y => if x = y then some 0 else (firstIdx? l y).map (· + 1)

/-- The `=HYPERLINK(...)` payload written for a contacted person
(gsheet.py line 466). -/
def hyperlinkPayload (linkedinUrl personName : String) : String :=
  "=HYPERLINK(\"" ++ linkedinUrl ++ "\",\"" ++ personName ++ "\")"

/-- `CompanyTracker.add_person_to_company` (gsheet.py lines 434-475): allocate
or reuse a `Person N` column, then write the hyperlink payload at the
company's row in that column; raises when the company is not found. -/
def add_person_to_company (s : Sheet) (companyId personName linkedinUrl : String) :
    Except String Sheet :=
  match get_company_row s companyId with
  | none => .error ("Company " ++ companyId ++ " not found")
  | some cd =>
    let nextCol := get_next_person_column s
    let headers := row_values1 s
    match firstIdx? headers nextCol with
    | some i =>
      .ok (update_cell s cd.row_number (i + 1) (hyperlinkPayload linkedinUrl personName))
    | none =>
      let s1 := update_cell s 1 (headers.length + 1) nextCol
      .ok (update_cell s1 cd.row_number (headers.length + 1)
            (hyperlinkPayload linkedinUrl personName))

/-- A candidate person as extracted by the search (linkedin_agent.py
`Person` dataclass, lines 23-28). -/
structure Person where
  name : String
  title : String
  company : String
  profile_url : String
deriving DecidableEq

/-- The configuration fields the coordinator's observable behaviour depends on
(linkedin_agent.py `Config`, lines 30-36). Timing fields (delays, waits) and
`headless` do not influence the store and are not modelled. -/
structure Config where
  max_connections_per_company : Nat := 3
  connection_message_template : String := ""
deriving DecidableEq

/-- Outcome of one connection attempt on a profile page, as distinguished by
`send_connection_request` (linkedin_agent.py lines 332-460):
`sent` (note sent successfully), `alreadyConnected` (no Connect button, a
Message button found, line 390-392), `employerUnknown` (the latest employer
could not be extracted, lines 341-343), `actionFailed` (any raise during the
attempt; `reason` is the exception text, e.g. "Could not find or click
Connect button"). -/
inductive ConnectOutcome where
  | sent
  | alreadyConnected
  | employerUnknown
  | actionFailed (reason : String)
deriving DecidableEq

/-- External collaborators: the browser (search-result candidates and connect
outcomes) and injected Google-Sheets API failures (`failAt n` makes the n-th
tracker call raise). -/
structure Oracle where
  searchResults : String → List Person
  connect : Person → ConnectOutcome
  failAt : Nat → Bool

/-- Observable side effects of a run: calls to the finder/scraper and to the
store. -/
inductive Event where
  | finderSearch (companyName : String)
  | connectAttempt (profileUrl : String)
  | storeRead (companyId : String)
  | storeUpdateStatus (companyId status : String) (comments : Option String)
  | storeAppendPerson (companyId personName profileUrl : String)
deriving DecidableEq

/-- Mutable state threaded through the run: the sheet and a counter of tracker
calls (used to address failure injection). -/
structure AgentState where
  sheet : Sheet
  opCount : Nat
deriving DecidableEq

/-- `self.tracker.get_company_row` as called by the agent: may raise (injected
API failure), otherwise the pure lookup. -/
def tGetCompanyRow (orc : Oracle) (st : AgentState) (companyId : String) :
    Except String (Option CompanyRow) × AgentState × List Event :=
  let st' : AgentState := ⟨st.sheet, st.opCount + 1⟩
  if orc.failAt st.opCount then (.error "API error", st', [.storeRead companyId])
  else (.ok (get_company_row st.sheet companyId), st', [.storeRead companyId])

/-- `self.tracker.update_company_status` as called by the agent: may raise
(injected failure or company not found), otherwise writes the sheet. -/
def tUpdateStatus (orc : Oracle) (st : AgentState) (companyId status : String)
    (comments : Option String) : Except String Unit × AgentState × List Event :=
  let ev := [Event.storeUpdateStatus companyId status comments]
  if orc.failAt st.opCount then (.error "API error", ⟨st.sheet, st.opCount + 1⟩, ev)
  else
    match update_company_status st.sheet companyId status comments with
    | .error e => (.error e, ⟨st.sheet, st.opCount + 1⟩, ev)
    | .ok sh => (.ok (), ⟨sh, st.opCount + 1⟩, ev)

/-- `self.tracker.add_person_to_company` as called by the agent. -/
def tAddPerson (orc : Oracle) (st : AgentState) (companyId personName profileUrl : String) :
    Except String Unit × AgentState × List Event :=
  let ev := [Event.storeAppendPerson companyId personName profileUrl]
  if orc.failAt st.opCount then (.error "API error", ⟨st.sheet, st.opCount + 1⟩, ev)
  else
    match add_person_to_company st.sheet companyId personName profileUrl with
    | .error e => (.error e, ⟨st.sheet, st.opCount + 1⟩, ev)
    | .ok sh => (.ok (), ⟨sh, st.opCount + 1⟩, ev)

/-- The dedup test of `send_connection_request` (linkedin_agent.py lines
322-328): some stored payload of the company contains the candidate's profile
URL as a substring. -/
def dedupHit (cd : CompanyRow) (p : Person) : Bool :=
  cd.people.any (fun e => strContains e.data p.profile_url)

/-- The error text written on an action failure (linkedin_agent.py line 478). -/
def failMsg (personName reason : String) : String :=
  "Failed to send connection request to " ++ personName ++ ": " ++ reason

/-- `LinkedInAgent.send_connection_request` (linkedin_agent.py lines 315-489),
always called with a company id by `process_companies`. Phases: dedup check
(read failure only logged, lines 329-330); profile visit and connection
attempt (abstracted into the oracle outcome); on success append the person to
the tracker (failure only logged, lines 466-470) and return `true`; on an
exception write the error status (failure only logged, lines 481-487) and
return `false`. -/
def send_connection_request (orc : Oracle) (st : AgentState) (p : Person)
    (companyId : String) : Bool × AgentState × List Event :=
  let t := tGetCompanyRow orc st companyId
  let hit : Bool :=
    match t.1 with
    | .ok (some cd) => dedupHit cd p
    | _ => false
  if hit then (false, t.2.1, t.2.2)
  else
    let ev2 := t.2.2 ++ [Event.connectAttempt p.profile_url]
    match orc.connect p with
    | .employerUnknown => (false, t.2.1, ev2)
    | .alreadyConnected => (false, t.2.1, ev2)
    | .sent =>
      let a := tAddPerson orc t.2.1 companyId p.name p.profile_url
      (true, a.2.1, ev2 ++ a.2.2)
    | .actionFailed reason =>
      let u := tUpdateStatus orc t.2.1 companyId (failMsg p.name reason) none
      (false, u.2.1, ev2 ++ u.2.2)

/-- Python `str.lower` on an ASCII character. -/
def asciiLower (c : Char) : Char :=
  if 65 ≤ c.toNat ∧ c.toNat ≤ 90 then Char.ofNat (c.toNat + 32) else c

/-- The title filter of `search_company_people` (linkedin_agent.py line 194):
a role keyword occurs in the lowercased title. -/
def titleMatches (title : String) : Bool :=
  let t := title.data.map asciiLower
  containsL "product".data t || containsL "pm".data t ||
    containsL "manager".data t || containsL "lead".data t

/-- The keep condition of `search_company_people` (line 194): a name and a
profile URL were extracted and the title matches a role keyword. -/
def personPasses (p : Person) : Bool :=
  !(p.name = "") && !(p.profile_url = "") && titleMatches p.title

/-- The result-accumulation loop of `search_company_people` (lines 155-205):
keep passing candidates, stopping once the count reaches
`max_connections_per_company` (checked after each append). -/
def searchFilter (cap : Nat) : List Person → List Person → List Person
  | acc, [] => acc
  | acc, p :: rest =>
    if personPasses p then
      let acc' := acc ++ [p]
      if cap ≤ acc'.length then acc' else searchFilter cap acc' rest
    else searchFilter cap acc rest

/-- `LinkedInAgent.search_company_people` (lines 123-216): at most the first
10 raw results are examined; DOM extraction is abstracted into the oracle. -/
def search_company_people (cfg : Config) (orc : Oracle) (companyName : String) :
    List Person :=
  searchFilter cfg.max_connections_per_company [] ((orc.searchResults companyName).take 10)

/-- The per-candidate loop of `process_companies` (lines 504-509): count
successes, stop once `sent_count` reaches the cap (checked after each
attempt). -/
def candidateLoop (cfg : Config) (orc : Oracle) (companyId : String) :
    AgentState → Nat → List Person → AgentState × Nat × List Event
  | st, sentCount, [] => (st, sentCount, [])
  | st, sentCount, p :: rest =>
    let r := send_connection_request orc st p companyId
    let sent' := if r.1 then sentCount + 1 else sentCount
    if cfg.max_connections_per_company ≤ sent' then (r.2.1, sent', r.2.2)
    else
      let r2 := candidateLoop cfg orc companyId r.2.1 sent' rest
      (r2.1, r2.2.1, r.2.2 ++ r2.2.2)

/-- The completion block of `process_companies` (lines 511-524): only when at
least one request was sent, re-read the company and write
`Completed` / `Successfully sent N connection requests` only if the freshly
read status is still empty; every failure is logged and swallowed. -/
def completionPhase (orc : Oracle) (st : AgentState) (companyId : String)
    (sentCount : Nat) : AgentState × List Event :=
  if 0 < sentCount then
    let t := tGetCompanyRow orc st companyId
    match t.1 with
    | .ok (some cd) =>
      if cd.status = "" then
        let u := tUpdateStatus orc t.2.1 companyId "Completed"
          (some ("Successfully sent " ++ toString sentCount ++ " connection requests"))
        (u.2.1, t.2.2 ++ u.2.2)
      else (t.2.1, t.2.2)
    | _ => (t.2.1, t.2.2)
  else (st, [])

/-- The per-company body of `process_companies` (lines 494-526): skip when the
input status is non-empty; otherwise search, run the candidate loop, then the
completion block. -/
def processCompany (cfg : Config) (orc : Oracle) (st : AgentState)
    (c : CompanyRow) : AgentState × List Event :=
  if c.status = "" then
    let people := search_company_people cfg orc c.company_name
    let r := candidateLoop cfg orc c.company_id st 0 people
    let cp := completionPhase orc r.1 c.company_id r.2.1
    (cp.1, Event.finderSearch c.company_name :: (r.2.2 ++ cp.2))
  else (st, [])

/-- Sequential iteration over the input companies (line 494). -/
def processList (cfg : Config) (orc : Oracle) :
    AgentState → List CompanyRow → AgentState × List Event
  | st, [] => (st, [])
  | st, c :: rest =>
    let r1 := processCompany cfg orc st c
    let r2 := processList cfg orc r1.1 rest
    (r2.1, r1.2 ++ r2.2)

/-- `LinkedInAgent.process_companies` (lines 491-528). `results` is initialised
to the empty dict at line 492 and returned at line 528 without ever being
assigned to, which the first component reproduces. -/
def process_companies (cfg : Config) (orc : Oracle) (st : AgentState)
    (companies : List CompanyRow) : List (String × Nat) × AgentState × List Event :=
  let results : List (String × Nat) := []
  let r := processList cfg orc st companies
  (results, r.1, r.2)

/-! Concrete data used by counterexamples and witnesses: a store with one
unprocessed company "1" / "Acme" and candidates found for it. -/

def baseHeaders : List String := ["Company ID", "Company Name", "Status", "Comments"]

def sheet0 : Sheet := [baseHeaders, ["1", "Acme", "", ""]]

def st0 : AgentState := ⟨sheet0, 0⟩

def cfgD : Config := {}

def pA : Person := ⟨"A", "Product Manager", "Acme", "https://linkedin.com/in/a"⟩

def pB : Person := ⟨"B", "Senior Product Lead", "Acme", "https://linkedin.com/in/b"⟩

def pC : Person := ⟨"C", "PM", "Acme", "https://linkedin.com/in/c"⟩

def c1 : CompanyRow := ⟨2, "1", "Acme", "", "", []⟩

/-- Scenario oracle: three candidates for Acme; the connect attempt fails on A
("no connect button"), succeeds on B, fails on C ("no send button"); no store
failures. -/
def orcA : Oracle where
  searchResults := fun n => if n = "Acme" then [pA, pB, pC] else []
  connect := fun p =>
    if p = pA then .actionFailed "no connect button"
    else if p = pB then .sent
    else .actionFailed "no send button"
  failAt := fun _ => false

/-- Configuration with a zero per-company cap. -/
def cfg0 : Config := { max_connections_per_company := 0 }

/-- Oracle with a single candidate B for Acme whose connect attempt succeeds. -/
def orc5 : Oracle where
  searchResults := fun n => if n = "Acme" then [pB] else []
  connect := fun _ => .sent
  failAt := fun _ => false

/-- A store in which person B was already recorded for company "1". -/
def sheet6 : Sheet :=
  [["Company ID", "Company Name", "Status", "Comments", "Person 1"],
   ["1", "Acme", "", "", hyperlinkPayload "https://linkedin.com/in/b" "B"]]

def st6 : AgentState := ⟨sheet6, 0⟩

def cd6 : CompanyRow :=
  ⟨2, "1", "Acme", "", "",
   [⟨"Person 1", hyperlinkPayload "https://linkedin.com/in/b" "B"⟩]⟩

/-- A company whose status is already non-empty at the start of the run. -/
def c2done : CompanyRow := ⟨3, "2", "Globex", "Completed", "", []⟩

/-- A store whose header row holds "Person +7", which Python int() parses as 7
although no header is the exact label "Person 7". -/
def sheetP : Sheet :=
  [["Company ID", "Company Name", "Status", "Comments", "Person +7"],
   ["1", "Acme", "", ""]]

/-! Projection facts about the tracker calls, used to reason about runs with
arbitrary injected failures. -/

theorem tGetCompanyRow_snd (orc : Oracle) (st : AgentState) (companyId : String) :
    (tGetCompanyRow orc st companyId).2 =
      (⟨st.sheet, st.opCount + 1⟩, [Event.storeRead companyId]) := by
  unfold tGetCompanyRow; split <;> rfl

theorem tGetCompanyRow_fst (orc : Oracle) (st : AgentState) (companyId : String)
    (hf : orc.failAt st.opCount = false) :
    (tGetCompanyRow orc st companyId).1 = .ok (get_company_row st.sheet companyId) := by
  unfold tGetCompanyRow; simp [hf]

theorem tUpdateStatus_events (orc : Oracle) (st : AgentState)
    (companyId status : String) (comments : Option String) :
    (tUpdateStatus orc st companyId status comments).2.2 =
      [Event.storeUpdateStatus companyId status comments] := by
  unfold tUpdateStatus
  split
  · rfl
  · split <;> rfl

theorem tAddPerson_events (orc : Oracle) (st : AgentState)
    (companyId personName profileUrl : String) :
    (tAddPerson orc st companyId personName profileUrl).2.2 =
      [Event.storeAppendPerson companyId personName profileUrl] := by
  unfold tAddPerson
  split
  · rfl
  · split <;> rfl

/-! Spec-side definitions for claim C8: the allocator as the claim's words
describe it, for comparison with the source allocator. -/

/-- Is the character list the canonical decimal numeral of a natural number
(digits only, no leading zero except the one-digit "0")? -/
def canonicalNat : List Char → Bool
  | [] => false
  | [c] => c.isDigit
  | c :: rest => c.isDigit && !(c = '0') && rest.all (fun d => d.isDigit)

/-- Is the character list the canonical decimal rendering of an integer
(a natural numeral, or '-' followed by a non-zero natural numeral)? -/
def canonicalInt : List Char → Bool
  | '-' :: rest => canonicalNat rest && !(rest = ['0'])
  | l => canonicalNat l

/-- Modelled from the claim's words (C8): a header of the exact form
"Person M" with M an integer written canonically; returns M. -/
def specPersonNum? (h : String) : Option Int :=
  if startsWithL personSep h.data && canonicalInt (h.data.drop 7) then
    pyInt? (String.mk (h.data.drop 7))
  else none

/-- Modelled from the claim's words (C8): N = max over all integers M such
that a header "Person M" exists, plus 1; or 1 when no such header exists. -/
def specNextPersonNum (headers : List String) : Int :=
  match headers.filterMap specPersonNum? with
  | [] => 1
  | n :: rest => rest.foldl max n + 1

/-- The next-label allocator exactly as the claim describes it. -/
def specNextPersonColumn (s : Sheet) : String :=
  "Person " ++ toString (specNextPersonNum (row_values1 s))

/-- C1 counterexample: company "1" with candidates A, B, C where the connect
attempt on A returns ActionFailed("no connect button"): the per-company loop
is NOT aborted — B is still attempted and appended, C is attempted, and the
company status is written twice (C's failure message overwrites A's), refuting
"no later candidate of that company is attempted, no append for a later
candidate occurs" and "a single write". -/
theorem C1_counterexample :
    Event.connectAttempt pB.profile_url ∈ (processCompany cfgD orcA st0 c1).2 ∧
    Event.connectAttempt pC.profile_url ∈ (processCompany cfgD orcA st0 c1).2 ∧
    Event.storeAppendPerson "1" "B" pB.profile_url ∈ (processCompany cfgD orcA st0 c1).2 ∧
    Event.storeUpdateStatus "1" (failMsg "A" "no connect button") none ∈
      (processCompany cfgD orcA st0 c1).2 ∧
    Event.storeUpdateStatus "1" (failMsg "C" "no send button") none ∈
      (processCompany cfgD orcA st0 c1).2 ∧
    cellAt (processCompany cfgD orcA st0 c1).1.sheet 2 3 =
      failMsg "C" "no send button" := by
  decide

/-- C2: `process_companies` always returns the empty mapping — `results` is
initialised at line 492 and never assigned — even in a run that did send a
connection request (the append call is in the trace), contradicting the
per-company counts the claim (and `main`, lines 561-563) expects. -/
theorem C2_results_empty :
    (∀ cfg orc st companies, (process_companies cfg orc st companies).1 = []) ∧
    (process_companies cfgD orcA st0 [c1]).1 = [] ∧
    Event.storeAppendPerson "1" "B" pB.profile_url ∈
      (process_companies cfgD orcA st0 [c1]).2.2 :=
  ⟨fun _ _ _ _ => rfl, rfl, by decide⟩

/-- C3 counterexample: recorded action failures produce the status
"Failed to send connection request to <name>: <reason>", which does not start
with "Error: ", so the persisted status is outside the claimed set
{empty, "In Progress", "Completed", "Error: <message>"}. -/
theorem C3_counterexample :
    cellAt (processCompany cfgD orcA st0 c1).1.sheet 2 3 =
      "Failed to send connection request to C: no send button" ∧
    (cellAt (processCompany cfgD orcA st0 c1).1.sheet 2 3).data.take 7 ≠ "Error: ".data ∧
    cellAt (processCompany cfgD orcA st0 c1).1.sheet 2 3 ∉
      (["", "In Progress", "Completed"] : List String) := by
  decide

/-- C5 counterexample: with `max_connections_per_company = 0` the cap check
(line 508) runs only after an attempt, so one successful send is still
recorded — sentCount = 1 > 0 = cap — refuting "successful sends ≤ cap" for
every configuration. -/
theorem C5_counterexample :
    cfg0.max_connections_per_company = 0 ∧
    (candidateLoop cfg0 orc5 "1" st0 0 (search_company_people cfg0 orc5 "Acme")).2.1 = 1 ∧
    Event.storeAppendPerson "1" "B" pB.profile_url ∈ (processCompany cfg0 orc5 st0 c1).2 := by
  decide

/-- C8 counterexample: with header "Person +7" (parsed by Python int() as 7,
though no header of the exact form "Person M" exists) the source computes the
next label "Person 8" while the claim's rule (max over exact "Person M"
headers, else 1) yields "Person 1". -/
theorem C8_counterexample :
    get_next_person_column sheetP = "Person 8" ∧
    specNextPersonColumn sheetP = "Person 1" ∧
    get_next_person_column sheetP ≠ specNextPersonColumn sheetP := by
  decide

/-- C4: after the per-candidate loop, "Completed" with comments
"Successfully sent N connection requests" is written exactly when
sentCount > 0 and the company's status, freshly re-read from the store, is
still empty; in every other case the sheet is left untouched. Stated for runs
without injected store failures. -/
theorem C4_completion_guard (orc : Oracle) (st : AgentState) (companyId : String)
    (sentCount : Nat) (hfail : ∀ n, orc.failAt n = false) :
    (∀ cd, get_company_row st.sheet companyId = some cd → cd.status = "" →
      0 < sentCount →
      completionPhase orc st companyId sentCount =
        (⟨update_cell (update_cell st.sheet cd.row_number 3 "Completed")
            cd.row_number 4
            ("Successfully sent " ++ toString sentCount ++ " connection requests"),
          st.opCount + 2⟩,
         [Event.storeRead companyId,
          Event.storeUpdateStatus companyId "Completed"
            (some ("Successfully sent " ++ toString sentCount ++
              " connection requests"))])) ∧
    (sentCount = 0 ∨ get_company_row st.sheet companyId = none ∨
        (∃ cd, get_company_row st.sheet companyId = some cd ∧ cd.status ≠ "") →
      (completionPhase orc st companyId sentCount).1.sheet = st.sheet) := by
  constructor
  · intro cd hcd hst hpos
    simp [completionPhase, tGetCompanyRow, tUpdateStatus, update_company_status,
      hfail, hcd, hst, hpos]
  · rintro (h0 | hnone | ⟨cd, hcd, hst⟩)
    · simp [completionPhase, h0]
    · by_cases h0 : 0 < sentCount
      · simp [completionPhase, tGetCompanyRow, hfail, hnone, h0]
      · simp [completionPhase, h0]
    · by_cases h0 : 0 < sentCount
      · simp [completionPhase, tGetCompanyRow, hfail, hcd, hst, h0]
      · simp [completionPhase, h0]

theorem C4_completion_guard_witness :
    get_company_row st0.sheet "1" = some c1 ∧ c1.status = "" ∧ 0 < 2 ∧
    completionPhase orcA st0 "1" 2 =
      (⟨update_cell (update_cell st0.sheet c1.row_number 3 "Completed")
          c1.row_number 4
          ("Successfully sent " ++ toString 2 ++ " connection requests"),
        st0.opCount + 2⟩,
       [Event.storeRead "1",
        Event.storeUpdateStatus "1" "Completed"
          (some ("Successfully sent " ++ toString 2 ++ " connection requests"))]) :=
  ⟨by decide, rfl, by decide,
    (C4_completion_guard orcA st0 "1" 2 (fun _ => rfl)).1 c1 (by decide) rfl (by decide)⟩

/-- C6: when some payload already stored in the company's people collection
contains the candidate's profile URL as a substring, the candidate is skipped:
`send_connection_request` returns false having performed only the dedup read —
no connect attempt, no append, no status write, sheet unchanged — and the
candidate loop proceeds to the remaining candidates with `sentCount`
unchanged. -/
theorem C6_dedup (orc : Oracle) (st : AgentState) (p : Person) (companyId : String)
    (cd : CompanyRow) (hfail : orc.failAt st.opCount = false)
    (hrow : get_company_row st.sheet companyId = some cd)
    (hhit : dedupHit cd p = true) :
    send_connection_request orc st p companyId =
      (false, ⟨st.sheet, st.opCount + 1⟩, [Event.storeRead companyId]) ∧
    ∀ cfg rest sentCount, sentCount < cfg.max_connections_per_company →
      candidateLoop cfg orc companyId st sentCount (p :: rest) =
        ((candidateLoop cfg orc companyId ⟨st.sheet, st.opCount + 1⟩ sentCount rest).1,
         (candidateLoop cfg orc companyId ⟨st.sheet, st.opCount + 1⟩ sentCount rest).2.1,
         Event.storeRead companyId ::
           (candidateLoop cfg orc companyId ⟨st.sheet, st.opCount + 1⟩ sentCount rest).2.2) := by
  have h1 : send_connection_request orc st p companyId =
      (false, ⟨st.sheet, st.opCount + 1⟩, [Event.storeRead companyId]) := by
    simp [send_connection_request, tGetCompanyRow, hfail, hrow, hhit]
  refine ⟨h1, ?_⟩
  intro cfg rest sentCount hlt
  simp only [candidateLoop, h1]
  rw [if_neg (by simpa using Nat.not_le.mpr hlt)]
  simp

theorem C6_dedup_witness :
    get_company_row st6.sheet "1" = some cd6 ∧ dedupHit cd6 pB = true ∧
    send_connection_request orcA st6 pB "1" =
      (false, ⟨st6.sheet, st6.opCount + 1⟩, [Event.storeRead "1"]) :=
  ⟨by decide, by decide, (C6_dedup orcA st6 pB "1" cd6 rfl (by decide) (by decide)).1⟩

/-- C7: a company whose status is non-empty in the input list is skipped
entirely: its processing performs no store access and no finder or scraper
call (empty event list, state unchanged), and a run over a list containing it
equals the run over the list without it. -/
theorem C7_skip (cfg : Config) (orc : Oracle) (c : CompanyRow)
    (h : c.status ≠ "") :
    (∀ st, processCompany cfg orc st c = (st, [])) ∧
    (∀ pre st post, processList cfg orc st (pre ++ c :: post) =
      processList cfg orc st (pre ++ post)) := by
  have h1 : ∀ st, processCompany cfg orc st c = (st, []) := by
    intro st
    simp [processCompany, h]
  refine ⟨h1, ?_⟩
  intro pre
  induction pre with
  | nil =>
    intro st post
    simp [processList, h1]
  | cons a pre ih =>
    intro st post
    simp only [List.cons_append, processList, List.append_eq]
    rw [ih]

theorem C7_skip_witness :
    c2done.status ≠ "" ∧
    processList cfgD orcA st0 ([] ++ c2done :: [c1]) =
      processList cfgD orcA st0 ([] ++ [c1]) :=
  ⟨by decide, (C7_skip cfgD orcA c2done (by decide)).2 [] st0 [c1]⟩

/-- C9: batch processing never aborts: for every oracle — in particular every
pattern of injected store failures and scraper outcomes, all of which the
source catches and logs — a run over `xs ++ ys` is the run over `xs` followed
by the run over `ys` from the intermediate state, and every company with
empty input status is actually reached (its finder search appears in the
trace) regardless of failures at earlier companies. -/
theorem C9_no_abort (cfg : Config) (orc : Oracle) :
    (∀ xs ys st, processList cfg orc st (xs ++ ys) =
      ((processList cfg orc (processList cfg orc st xs).1 ys).1,
       (processList cfg orc st xs).2 ++
         (processList cfg orc (processList cfg orc st xs).1 ys).2)) ∧
    (∀ st companies c, c ∈ companies → c.status = "" →
      Event.finderSearch c.company_name ∈ (processList cfg orc st companies).2) := by
  constructor
  · intro xs
    induction xs with
    | nil => intro ys st; simp [processList]
    | cons a xs ih =>
      intro ys st
      simp only [List.cons_append, processList, List.append_eq]
      rw [ih]
      simp [List.append_assoc]
  · intro st companies c hc hst
    induction companies generalizing st with
    | nil => cases hc
    | cons a rest ih =>
      rcases List.mem_cons.mp hc with h | h
      · subst h
        simp only [processList]
        refine List.mem_append_left _ ?_
        simp [processCompany, hst]
      · simp only [processList]
        exact List.mem_append_right _ (ih (processCompany cfg orc st a).1 h)

theorem C9_no_abort_witness :
    processList cfgD orcA st0 ([c1] ++ [c2done]) =
      ((processList cfgD orcA (processList cfgD orcA st0 [c1]).1 [c2done]).1,
       (processList cfgD orcA st0 [c1]).2 ++
         (processList cfgD orcA (processList cfgD orcA st0 [c1]).1 [c2done]).2) ∧
    c1 ∈ [c1, c2done] ∧ c1.status = "" ∧
    Event.finderSearch c1.company_name ∈ (processList cfgD orcA st0 [c1, c2done]).2 :=
  ⟨(C9_no_abort cfgD orcA).1 [c1] [c2done] st0,
   by decide, rfl, (C9_no_abort cfgD orcA).2 st0 [c1, c2done] c1 (by decide) rfl⟩

theorem candidateLoop_sent_le_max (cfg : Config) (orc : Oracle) (companyId : String) :
    ∀ (people : List Person) (st : AgentState) (sentCount : Nat),
      (candidateLoop cfg orc companyId st sentCount people).2.1 ≤
        max cfg.max_connections_per_company (sentCount + 1) := by
  intro people
  induction people with
  | nil =>
    intro st sc
    simp only [candidateLoop]
    exact le_max_of_le_right (Nat.le_succ sc)
  | cons p rest ih =>
    intro st sc
    simp only [candidateLoop]
    set r := send_connection_request orc st p companyId with hr
    set s' := if r.1 then sc + 1 else sc with hs'
    have hle : s' ≤ sc + 1 := by rw [hs']; split <;> omega
    by_cases hcap : cfg.max_connections_per_company ≤ s'
    · rw [if_pos hcap]
      exact le_max_of_le_right hle
    · rw [if_neg hcap]
      have h2 := ih r.2.1 s'
      have h3 : max cfg.max_connections_per_company (s' + 1) =
          cfg.max_connections_per_company := max_eq_left (by omega)
      rw [h3] at h2
      exact le_trans h2 (le_max_left _ _)

theorem candidateLoop_sent_le_cap (cfg : Config) (orc : Oracle) (companyId : String) :
    ∀ (people : List Person) (st : AgentState) (sentCount : Nat),
      sentCount < cfg.max_connections_per_company →
      (candidateLoop cfg orc companyId st sentCount people).2.1 ≤
        cfg.max_connections_per_company := by
  intro people
  induction people with
  | nil =>
    intro st sc h
    simpa only [candidateLoop] using le_of_lt h
  | cons p rest ih =>
    intro st sc h
    simp only [candidateLoop]
    set r := send_connection_request orc st p companyId with hr
    set s' := if r.1 then sc + 1 else sc with hs'
    have hle : s' ≤ sc + 1 := by rw [hs']; split <;> omega
    by_cases hcap : cfg.max_connections_per_company ≤ s'
    · rw [if_pos hcap]
      show s' ≤ cfg.max_connections_per_company
      omega
    · rw [if_neg hcap]
      exact ih r.2.1 s' (by omega)

theorem searchFilter_length (cap : Nat) :
    ∀ (raw acc : List Person),
      (searchFilter cap acc raw).length ≤ max cap (acc.length + 1) := by
  intro raw
  induction raw with
  | nil =>
    intro acc
    simp only [searchFilter]
    exact le_max_of_le_right (Nat.le_succ _)
  | cons p rest ih =>
    intro acc
    simp only [searchFilter]
    by_cases hp : personPasses p
    · rw [if_pos hp]
      by_cases hlen : cap ≤ (acc ++ [p]).length
      · rw [if_pos hlen]
        refine le_max_of_le_right ?_
        simp
      · rw [if_neg hlen]
        have h2 := ih (acc ++ [p])
        have hlen2 : (acc ++ [p]).length = acc.length + 1 := by simp
        have h3 : max cap ((acc ++ [p]).length + 1) = cap := by
          apply max_eq_left
          rw [hlen2]
          simp only [List.length_append, List.length_singleton] at hlen
          omega
        rw [h3] at h2
        exact le_trans h2 (le_max_left _ _)
    · rw [if_neg hp]
      exact ih acc

/-- C5 (amended): successful sends per company in one run are bounded by
max(cap, 1) — and by the cap itself whenever the cap is at least 1; the
candidate loop stops as soon as `sentCount` reaches the cap, regardless of
remaining candidates; the search likewise returns at most max(cap, 1)
candidates. The unconditional "≤ cap" fails at cap = 0 because the source
checks the cap only after each attempt. -/
theorem C5_amended (cfg : Config) (orc : Oracle) (companyId : String) :
    (∀ st people, (candidateLoop cfg orc companyId st 0 people).2.1 ≤
      max cfg.max_connections_per_company 1) ∧
    (1 ≤ cfg.max_connections_per_company → ∀ st people,
      (candidateLoop cfg orc companyId st 0 people).2.1 ≤
        cfg.max_connections_per_company) ∧
    (∀ st sentCount p rest,
      cfg.max_connections_per_company ≤
        (if (send_connection_request orc st p companyId).1 then sentCount + 1
         else sentCount) →
      candidateLoop cfg orc companyId st sentCount (p :: rest) =
        ((send_connection_request orc st p companyId).2.1,
         if (send_connection_request orc st p companyId).1 then sentCount + 1
         else sentCount,
         (send_connection_request orc st p companyId).2.2)) ∧
    (∀ name, (search_company_people cfg orc name).length ≤
      max cfg.max_connections_per_company 1) := by
  refine ⟨?_, ?_, ?_, ?_⟩
  · intro st people
    exact candidateLoop_sent_le_max cfg orc companyId people st 0
  · intro hcap st people
    exact candidateLoop_sent_le_cap cfg orc companyId people st 0 hcap
  · intro st sentCount p rest h
    simp only [candidateLoop]
    rw [if_pos h]
  · intro name
    exact searchFilter_length cfg.max_connections_per_company _ []

theorem C5_amended_witness :
    (candidateLoop cfgD orcA "1" st0 0 (search_company_people cfgD orcA "Acme")).2.1 ≤
      max cfgD.max_connections_per_company 1 ∧
    1 ≤ cfgD.max_connections_per_company ∧
    (candidateLoop cfgD orcA "1" st0 0 (search_company_people cfgD orcA "Acme")).2.1 ≤
      cfgD.max_connections_per_company :=
  ⟨(C5_amended cfgD orcA "1").1 st0 _, by decide,
   (C5_amended cfgD orcA "1").2.1 (by decide) st0 _⟩

/-- C1 (amended): when the connect attempt on a candidate fails, the company's
status is overwritten with that candidate's error message and the candidate is
not counted, but the per-company loop is NOT aborted: it continues with the
remaining candidates (so later failures write again); a later success does not
overwrite the error status because the completion block re-reads the status
and writes "Completed" only when it is still empty. Stated for runs without
injected store failures. -/
theorem C1_amended (cfg : Config) (orc : Oracle) (st : AgentState)
    (cd : CompanyRow) (p : Person) (rest : List Person) (companyId : String)
    (sentCount : Nat) (reason : String)
    (hfail : ∀ n, orc.failAt n = false)
    (hconn : orc.connect p = .actionFailed reason)
    (hrow : get_company_row st.sheet companyId = some cd)
    (hdedup : dedupHit cd p = false)
    (hcap : sentCount < cfg.max_connections_per_company) :
    send_connection_request orc st p companyId =
      (false,
       ⟨update_cell st.sheet cd.row_number 3 (failMsg p.name reason),
        st.opCount + 2⟩,
       [Event.storeRead companyId, Event.connectAttempt p.profile_url,
        Event.storeUpdateStatus companyId (failMsg p.name reason) none]) ∧
    candidateLoop cfg orc companyId st sentCount (p :: rest) =
      ((candidateLoop cfg orc companyId
          ⟨update_cell st.sheet cd.row_number 3 (failMsg p.name reason),
           st.opCount + 2⟩ sentCount rest).1,
       (candidateLoop cfg orc companyId
          ⟨update_cell st.sheet cd.row_number 3 (failMsg p.name reason),
           st.opCount + 2⟩ sentCount rest).2.1,
       [Event.storeRead companyId, Event.connectAttempt p.profile_url,
        Event.storeUpdateStatus companyId (failMsg p.name reason) none] ++
         (candidateLoop cfg orc companyId
            ⟨update_cell st.sheet cd.row_number 3 (failMsg p.name reason),
             st.opCount + 2⟩ sentCount rest).2.2) ∧
    (∀ (st' : AgentState) (cd' : CompanyRow) (sent' : Nat), 0 < sent' →
      get_company_row st'.sheet companyId = some cd' → cd'.status ≠ "" →
      completionPhase orc st' companyId sent' =
        (⟨st'.sheet, st'.opCount + 1⟩, [Event.storeRead companyId])) := by
  have h1 : send_connection_request orc st p companyId =
      (false,
       ⟨update_cell st.sheet cd.row_number 3 (failMsg p.name reason),
        st.opCount + 2⟩,
       [Event.storeRead companyId, Event.connectAttempt p.profile_url,
        Event.storeUpdateStatus companyId (failMsg p.name reason) none]) := by
    simp [send_connection_request, tGetCompanyRow, tUpdateStatus,
      update_company_status, hfail, hconn, hrow, hdedup]
  refine ⟨h1, ?_, ?_⟩
  · simp only [candidateLoop, h1]
    rw [if_neg (by simpa using Nat.not_le.mpr hcap)]
    simp
  · intro st' cd' sent' h0 hcd' hst'
    simp [completionPhase, tGetCompanyRow, hfail, hcd', hst', h0]

theorem C1_amended_witness :
    orcA.connect pA = .actionFailed "no connect button" ∧
    get_company_row st0.sheet "1" = some c1 ∧
    dedupHit c1 pA = false ∧
    (0 : Nat) < cfgD.max_connections_per_company ∧
    send_connection_request orcA st0 pA "1" =
      (false,
       ⟨update_cell st0.sheet c1.row_number 3 (failMsg pA.name "no connect button"),
        st0.opCount + 2⟩,
       [Event.storeRead "1", Event.connectAttempt pA.profile_url,
        Event.storeUpdateStatus "1" (failMsg pA.name "no connect button") none]) :=
  ⟨by decide, by decide, by decide, by decide,
   (C1_amended cfgD orcA st0 c1 pA [pB] "1" 0 "no connect button"
     (fun _ => rfl) (by decide) (by decide) (by decide) (by decide)).1⟩

theorem send_status_events_shape (orc : Oracle) (st : AgentState) (p : Person)
    (companyId id s : String) (c : Option String)
    (h : Event.storeUpdateStatus id s c ∈
      (send_connection_request orc st p companyId).2.2) :
    ∃ r, s = failMsg p.name r := by
  simp only [send_connection_request, tGetCompanyRow_snd] at h
  split at h
  · simp at h
  · split at h
    · simp at h
    · simp at h
    · rw [tAddPerson_events] at h
      simp at h
    · rw [tUpdateStatus_events] at h
      simp at h
      exact ⟨_, h.2.1⟩

theorem candidateLoop_status_events_shape (cfg : Config) (orc : Oracle)
    (companyId : String) :
    ∀ (people : List Person) (st : AgentState) (sentCount : Nat)
      (id s : String) (c : Option String),
      Event.storeUpdateStatus id s c ∈
        (candidateLoop cfg orc companyId st sentCount people).2.2 →
      ∃ nm r, s = failMsg nm r := by
  intro people
  induction people with
  | nil =>
    intro st sc id s c h
    simp [candidateLoop] at h
  | cons p rest ih =>
    intro st sc id s c h
    simp only [candidateLoop] at h
    split at h
    · split at h
      · obtain ⟨r, hr⟩ := send_status_events_shape orc st p companyId id s c h
        exact ⟨p.name, r, hr⟩
      · rcases List.mem_append.mp h with h | h
        · obtain ⟨r, hr⟩ := send_status_events_shape orc st p companyId id s c h
          exact ⟨p.name, r, hr⟩
        · exact ih _ _ id s c h
    · split at h
      · obtain ⟨r, hr⟩ := send_status_events_shape orc st p companyId id s c h
        exact ⟨p.name, r, hr⟩
      · rcases List.mem_append.mp h with h | h
        · obtain ⟨r, hr⟩ := send_status_events_shape orc st p companyId id s c h
          exact ⟨p.name, r, hr⟩
        · exact ih _ _ id s c h

theorem completion_status_events_shape (orc : Oracle) (st : AgentState)
    (companyId : String) (sentCount : Nat) (id s : String) (c : Option String)
    (h : Event.storeUpdateStatus id s c ∈
      (completionPhase orc st companyId sentCount).2) :
    s = "Completed" := by
  simp only [completionPhase, tGetCompanyRow_snd] at h
  split at h
  · split at h
    · split at h
      · rw [tUpdateStatus_events] at h
        simp at h
        exact h.2.1
      · simp at h
    · simp at h
  · simp at h

theorem processCompany_status_events_shape (cfg : Config) (orc : Oracle)
    (st : AgentState) (c : CompanyRow) (id s : String) (cm : Option String)
    (h : Event.storeUpdateStatus id s cm ∈ (processCompany cfg orc st c).2) :
    s = "Completed" ∨ ∃ nm r, s = failMsg nm r := by
  simp only [processCompany] at h
  split at h
  · simp only [List.mem_cons] at h
    rcases h with h | h
    · simp at h
    · rcases List.mem_append.mp h with h | h
      · exact .inr (candidateLoop_status_events_shape cfg orc c.company_id _ st 0
          id s cm h)
      · exact .inl (completion_status_events_shape orc _ c.company_id _ id s cm h)
  · simp at h

/-- C3 (amended): the status written on an action failure is
"Failed to send connection request to <name>: <reason>" (not
"Error: <reason>"); accordingly every status value a run ever writes is
either "Completed" or of that failure form — the agent never writes
"In Progress" or any "Error: " status. -/
theorem C3_amended (cfg : Config) (orc : Oracle) (st : AgentState)
    (companies : List CompanyRow) (id s : String) (c : Option String)
    (h : Event.storeUpdateStatus id s c ∈
      (processList cfg orc st companies).2) :
    s = "Completed" ∨ ∃ nm r, s = failMsg nm r := by
  induction companies generalizing st with
  | nil => simp [processList] at h
  | cons a rest ih =>
    simp only [processList] at h
    rcases List.mem_append.mp h with h | h
    · exact processCompany_status_events_shape cfg orc st a id s c h
    · exact ih _ h

theorem C3_amended_witness :
    Event.storeUpdateStatus "1" (failMsg "A" "no connect button") none ∈
      (processList cfgD orcA st0 [c1]).2 ∧
    (failMsg "A" "no connect button" = "Completed" ∨
      ∃ nm r, failMsg "A" "no connect button" = failMsg nm r) :=
  ⟨by decide, C3_amended cfgD orcA st0 [c1] "1" _ none (by decide)⟩

theorem le_foldl_max_init : ∀ (l : List Int) (a : Int), a ≤ l.foldl max a := by
  intro l
  induction l with
  | nil => intro a; simp
  | cons b l ih =>
    intro a
    simp only [List.foldl]
    exact le_trans (le_max_left a b) (ih (max a b))

theorem le_foldl_max_mem : ∀ (l : List Int) (a x : Int), x ∈ l → x ≤ l.foldl max a := by
  intro l
  induction l with
  | nil => intro a x hx; cases hx
  | cons b l ih =>
    intro a x hx
    rcases List.mem_cons.mp hx with h | h
    · subst h
      simp only [List.foldl]
      exact le_trans (le_max_right a x) (le_foldl_max_init l _)
    · simp only [List.foldl]
      exact ih _ x h

theorem mem_personNums_lt (headers : List String) :
    ∀ m ∈ personNums headers, m < nextPersonNum headers := by
  intro m hm
  unfold nextPersonNum
  cases hn : personNums headers with
  | nil => rw [hn] at hm; cases hm
  | cons n restN =>
    rw [hn] at hm
    show m < restN.foldl max n + 1
    rcases List.mem_cons.mp hm with h | h
    · subst h
      have := le_foldl_max_init restN m
      omega
    · have := le_foldl_max_mem restN n m h
      omega

theorem startsWithL_not_digit_head (c : Char) (l : List Char)
    (hc : c.isDigit = true) : startsWithL personSep (c :: l) = false := by
  have hne : ¬ ('P' = c) := by
    intro h
    rw [← h] at hc
    exact absurd hc (by decide)
  simp [personSep, startsWithL, hne]

theorem startsWithL_dash_head (l : List Char) :
    startsWithL personSep ('-' :: l) = false := by
  simp [personSep, startsWithL]

theorem takeUntilSep_digits : ∀ (l : List Char), l.all Char.isDigit = true →
    takeUntilSep l = l := by
  intro l
  induction l with
  | nil => intro _; rfl
  | cons c rest ih =>
    intro h
    simp only [List.all_cons, Bool.and_eq_true] at h
    simp only [takeUntilSep]
    rw [startsWithL_not_digit_head c rest h.1]
    simp [ih h.2]

theorem canonicalNat_all_digits : ∀ (l : List Char), canonicalNat l = true →
    l.all Char.isDigit = true := by
  intro l
  cases l with
  | nil => intro h; exact absurd h (by simp [canonicalNat])
  | cons c tail =>
    cases tail with
    | nil =>
      intro h
      simp only [canonicalNat] at h
      simp [h]
    | cons d rest =>
      intro h
      simp only [canonicalNat, Bool.and_eq_true] at h
      simp only [List.all_cons, Bool.and_eq_true]
      refine ⟨h.1.1, ?_⟩
      have := h.2
      simpa using this

theorem takeUntilSep_canonical (l : List Char) (h : canonicalInt l = true) :
    takeUntilSep l = l := by
  cases l with
  | nil => rfl
  | cons c rest =>
    by_cases hd : c = '-'
    · subst hd
      have hcn : canonicalNat rest = true := by
        simp only [canonicalInt, Bool.and_eq_true] at h
        exact h.1
      simp only [takeUntilSep]
      rw [startsWithL_dash_head]
      simp [takeUntilSep_digits rest (canonicalNat_all_digits rest hcn)]
    · have hcn : canonicalNat (c :: rest) = true := by
        unfold canonicalInt at h
        split at h
        · rename_i heq
          exact absurd (List.cons.inj heq).1 hd
        · exact h
      exact takeUntilSep_digits _ (canonicalNat_all_digits _ hcn)

theorem specPersonNum_sub_code (h : String) (m : Int)
    (hs : specPersonNum? h = some m) : personColNum? h = some m := by
  unfold specPersonNum? at hs
  split at hs
  · rename_i hcond
    simp only [Bool.and_eq_true] at hcond
    unfold personColNum?
    rw [if_pos hcond.1, takeUntilSep_canonical _ hcond.2]
    exact hs
  · cases hs

/-- C8 (amended): the next `Person N` number is `max(parsed) + 1` where
`parsed` is what Python `int()` accepts from the text after the first
"Person " in a header starting with "Person " — this includes every exact
label "Person M" (with the same value M) but also variants such as
"Person +7" or "Person 07" — and it is strictly greater than every parsed
number; it is 1 when nothing parses. At allocation time, if a header equal to
the computed label exists its (first) column index is reused, otherwise the
label is appended at the column after the last non-empty header. -/
theorem C8_amended (s : Sheet) :
    (∀ m ∈ personNums (row_values1 s), m < nextPersonNum (row_values1 s)) ∧
    (personNums (row_values1 s) = [] → nextPersonNum (row_values1 s) = 1) ∧
    (∀ h m, specPersonNum? h = some m → personColNum? h = some m) ∧
    (∀ companyId personName linkedinUrl cd,
      get_company_row s companyId = some cd →
      add_person_to_company s companyId personName linkedinUrl =
        match firstIdx? (row_values1 s) (get_next_person_column s) with
        | some i =>
          .ok (update_cell s cd.row_number (i + 1)
                (hyperlinkPayload linkedinUrl personName))
        | none =>
          .ok (update_cell
                (update_cell s 1 ((row_values1 s).length + 1)
                  (get_next_person_column s))
                cd.row_number ((row_values1 s).length + 1)
                (hyperlinkPayload linkedinUrl personName))) := by
  refine ⟨mem_personNums_lt _, ?_, ?_, ?_⟩
  · intro hn
    unfold nextPersonNum
    rw [hn]
  · intro h m hs
    exact specPersonNum_sub_code h m hs
  · intro companyId personName linkedinUrl cd hcd
    simp only [add_person_to_company, hcd]

theorem C8_amended_witness :
    (1 : Int) ∈ personNums (row_values1 sheet6) ∧
    (1 : Int) < nextPersonNum (row_values1 sheet6) :=
  ⟨by decide, (C8_amended sheet6).1 1 (by decide)⟩

theorem findCompanyRow_row_ge (companyId : String) (headers : List String) :
    ∀ (rows : List (List String)) (idx : Nat) (cd : CompanyRow),
      findCompanyRow companyId headers rows idx = some cd →
      idx ≤ cd.row_number := by
  intro rows
  induction rows with
  | nil => intro idx cd h; cases h
  | cons row rest ih =>
    intro idx cd h
    simp only [findCompanyRow] at h
    split at h
    · exact le_trans (Nat.le_succ idx) (ih (idx + 1) cd h)
    · split at h
      · have hcd := (Option.some.inj h).symm
        subst hcd
        exact le_refl _
      · exact le_trans (Nat.le_succ idx) (ih (idx + 1) cd h)

theorem get_company_row_row_ge (s : Sheet) (companyId : String) (cd : CompanyRow)
    (h : get_company_row s companyId = some cd) : 2 ≤ cd.row_number := by
  unfold get_company_row at h
  split at h
  · cases h
  · exact findCompanyRow_row_ge companyId _ _ 2 cd h

/-- C10: for an existing company, `update_company_status` without comments
writes only the status cell (row, column 3) of that company's row — the
comments cell and every person cell (indeed every other cell of the sheet)
are unchanged — and with comments supplied only the status and comments
cells (columns 3 and 4) change. -/
theorem C10_frame (s : Sheet) (companyId status : String) (cd : CompanyRow)
    (hrow : get_company_row s companyId = some cd) :
    (∃ s', update_company_status s companyId status none = .ok s' ∧
      cellAt s' cd.row_number 3 = status ∧
      ∀ r c, 1 ≤ r → 1 ≤ c → ¬(r = cd.row_number ∧ c = 3) →
        cellAt s' r c = cellAt s r c) ∧
    (∀ cm, ∃ s', update_company_status s companyId status (some cm) = .ok s' ∧
      cellAt s' cd.row_number 3 = status ∧ cellAt s' cd.row_number 4 = cm ∧
      ∀ r c, 1 ≤ r → 1 ≤ c → ¬(r = cd.row_number ∧ c = 3) →
        ¬(r = cd.row_number ∧ c = 4) → cellAt s' r c = cellAt s r c) := by
  have hge : 2 ≤ cd.row_number := get_company_row_row_ge s companyId cd hrow
  constructor
  · refine ⟨update_cell s cd.row_number 3 status, ?_, ?_, ?_⟩
    · simp [update_company_status, hrow]
    · rw [cellAt_update_cell s cd.row_number 3 cd.row_number 3 status
        (by omega) (by omega) (by omega) (by omega)]
      simp
    · intro r c hr hc hne
      rw [cellAt_update_cell s cd.row_number 3 r c status
        (by omega) (by omega) hr hc, if_neg hne]
  · intro cm
    refine ⟨update_cell (update_cell s cd.row_number 3 status) cd.row_number 4 cm,
      ?_, ?_, ?_, ?_⟩
    · simp [update_company_status, hrow]
    · rw [cellAt_update_cell _ cd.row_number 4 cd.row_number 3 cm
        (by omega) (by omega) (by omega) (by omega)]
      rw [if_neg (by omega)]
      rw [cellAt_update_cell s cd.row_number 3 cd.row_number 3 status
        (by omega) (by omega) (by omega) (by omega)]
      simp
    · rw [cellAt_update_cell _ cd.row_number 4 cd.row_number 4 cm
        (by omega) (by omega) (by omega) (by omega)]
      simp
    · intro r c hr hc hne3 hne4
      rw [cellAt_update_cell _ cd.row_number 4 r c cm
        (by omega) (by omega) hr hc, if_neg hne4]
      rw [cellAt_update_cell s cd.row_number 3 r c status
        (by omega) (by omega) hr hc, if_neg hne3]

theorem C10_frame_witness :
    get_company_row sheet0 "1" = some c1 ∧
    (∃ s', update_company_status sheet0 "1" "In Progress" none = .ok s' ∧
      cellAt s' c1.row_number 3 = "In Progress" ∧
      ∀ r c, 1 ≤ r → 1 ≤ c → ¬(r = c1.row_number ∧ c = 3) →
        cellAt s' r c = cellAt sheet0 r c) :=
  ⟨by decide, (C10_frame sheet0 "1" "In Progress" c1 (by decide)).1⟩

end LinkedinAgent
